import Mathlib

/-!
Verification of the local key-value collection engine and its timing harness.

The timing harness (`Benchmark`) is translated from the notebook source:
a `Benchmark` stores one collection (`self.rdd`); `run name` times the
statement `funcs[name](self.rdd)` with `timeit`, taking the minimum over 3
trials of (total of 3 consecutive invocations) / 3 * 1000 milliseconds.

Wall-clock time is not computable inside the embedding, so the per-invocation
duration is supplied by a ghost cost oracle `cost : Nat → Nat → ℚ`
(`cost i j` = seconds taken by invocation `j` of trial `i`); the harness
combines these numbers exactly the way the source combines the timer readings.
An instrumentation state (`RunState`) records how many catalog lookups and
operation invocations happen and which collection each invocation observes.
-/

namespace LocalRDD

/-- Modelled from the spec: the engine's `Collection` (the `LocalRDD` class is
imported by the notebook, its code is not part of this repository): an ordered
in-memory sequence of immutable key-value records. -/
structure Collection (K V : Type) where
  records : List (K × V)
deriving DecidableEq

variable {K V W ε α : Type}

/-- Modelled from the spec: the ordered sequence of values, keys discarded. -/
def Collection.values (c : Collection K V) : List V :=
  c.records.map Prod.snd

/-- Modelled from the spec: `collect()` returns the full ordered value sequence
as a snapshot. -/
def Collection.collect (c : Collection K V) : List V :=
  c.values

/-- Modelled from the spec: `count()` is the number of records. -/
def Collection.count (c : Collection K V) : Nat :=
  c.records.length

/-- Modelled from the spec: `map_values(f)` applies `f` independently to each
value, keeping the key sequence. -/
def Collection.mapValues (f : V → W) (c : Collection K V) : Collection K W :=
  ⟨c.records.map (fun r => (r.1, f r.2))⟩

/-- Modelled from the spec: `filter(p)` keeps exactly the records satisfying
`p`, preserving relative order. -/
def Collection.filter (p : K → V → Bool) (c : Collection K V) : Collection K V :=
  ⟨c.records.filter (fun r => p r.1 r.2)⟩

/-- Error taxonomy intrinsic to the engine (spec §7). -/
inductive EngineError : Type
  | emptyCollection
  | lengthMismatch
deriving DecidableEq

/-- Modelled from the spec: `reduce(f)` folds the combiner over all values,
keys ignored; it fails with `EmptyCollectionError` on zero records. -/
def Collection.reduce (f : V → V → V) (c : Collection K V) : Except EngineError V :=
  match c.values with
  | [] => .error .emptyCollection
  | v :: vs => .ok (vs.foldl f v)

/-- Modelled from the spec: the distinct keys of the collection, first-seen
order. -/
def Collection.distinctKeys [BEq K] (c : Collection K V) : List K :=
  (c.records.map Prod.fst).eraseDups

/-- Modelled from the spec: the ordered sequence of values associated with a
key. -/
def Collection.valuesFor [BEq K] (c : Collection K V) (k : K) : List V :=
  c.records.filterMap (fun r => if r.1 == k then some r.2 else none)

/-- Modelled from the spec: `group_by_key()` maps each distinct key to the
ordered sequence of its values. -/
def Collection.groupByKey [BEq K] (c : Collection K V) : List (K × List V) :=
  c.distinctKeys.map (fun k => (k, c.valuesFor k))

/-- Modelled from the spec: `reduce_by_key(f)` yields one record per distinct
key whose value is the fold of `f` over that key's values. -/
def Collection.reduceByKey [BEq K] (f : V → V → V) (c : Collection K V) : Collection K V :=
  ⟨c.groupByKey.filterMap (fun g =>
    match g.2 with
    | [] => none
    | v :: vs => some (g.1, vs.foldl f v))⟩

/-- Modelled from the spec: `Collection::from(values, keys)` pairs the two
sequences; it fails with `LengthMismatchError` when lengths differ. -/
def Collection.fromSeqs (values : List V) (keys : List K) :
    Except EngineError (Collection K V) :=
  if keys.length = values.length then .ok ⟨keys.zip values⟩
  else .error .lengthMismatch

/-! ## The timing harness, translated from the notebook source -/

/-- The operation catalog: the module-level `funcs` dictionary mapping names
to closures over a collection.  A closure may fail with an error of type `ε`. -/
def Catalog (K V ε α : Type) : Type :=
  List (String × (Collection K V → Except ε α))

/-- Dictionary lookup `funcs[name]`: first entry whose key equals `name`. -/
def lookupCatalog (name : String) (funcs : Catalog K V ε α) :
    Option (Collection K V → Except ε α) :=
  match funcs.find? (fun kv => kv.1 == name) with
  | none => none
  | some kv => some kv.2

/-- The errors `Benchmark.run` can surface: the `KeyError` raised by
`funcs[name]` when the name is absent (the spec calls it
`UnknownOperationError`), or an error raised by the operation itself,
propagated as-is. -/
inductive RunError (ε : Type) : Type
  | unknownOperation (name : String)
  | opFailure (e : ε)
deriving DecidableEq

/-- Translated from the source: `Benchmark.__init__` stores only the
collection under test. -/
structure Benchmark (K V : Type) where
  rdd : Collection K V
deriving DecidableEq

/-- Ghost instrumentation: how many catalog lookups and operation calls have
happened, and the collection argument each operation call observed. -/
structure RunState (K V : Type) where
  lookups : Nat
  opCalls : Nat
  args : List (Collection K V)
deriving DecidableEq

/-- The instrumentation state before a run. -/
def RunState.init : RunState K V :=
  ⟨0, 0, []⟩

/-- One execution of the timed statement `lambda: funcs[name](self.rdd)`:
the dictionary lookup happens first (inside the timed call); if it fails the
`KeyError` surfaces; otherwise the closure is applied to the stored
collection and its own failure, if any, propagates unchanged. -/
def stmtExec (funcs : Catalog K V ε α) (name : String) (rdd : Collection K V)
    (s : RunState K V) : Except (RunError ε) α × RunState K V :=
  let s := { s with lookups := s.lookups + 1 }
  match lookupCatalog name funcs with
  | none => (.error (.unknownOperation name), s)
  | some f =>
    let s := { s with opCalls := s.opCalls + 1, args := s.args ++ [rdd] }
    match f rdd with
    | .error e => (.error (.opFailure e), s)
    | .ok a => (.ok a, s)

/-- `t.timeit(n)`: execute the statement `n` consecutive times; the first
failure aborts and propagates. -/
def timeitExec (stmt : RunState K V → Except (RunError ε) α × RunState K V) :
    Nat → RunState K V → Except (RunError ε) Unit × RunState K V
  | 0, s => (.ok (), s)
  | n + 1, s =>
    match stmt s with
    | (.error e, s) => (.error e, s)
    | (.ok _, s) => timeitExec stmt n s

/-- The reading `t.timeit(n)` returns for trial `i`: the total wall-clock
seconds of the `n` consecutive invocations, per the ghost cost oracle. -/
def timeitTotal (cost : Nat → Nat → ℚ) (i n : Nat) : ℚ :=
  ((List.range n).map (cost i)).sum

/-- Trial `i` of the comprehension body `t.timeit(3) / 3.0 * 1000`: run the
statement three times, then convert the total to a per-invocation mean in
milliseconds. -/
def trialExec (stmt : RunState K V → Except (RunError ε) α × RunState K V)
    (cost : Nat → Nat → ℚ) (i : Nat) (s : RunState K V) :
    Except (RunError ε) ℚ × RunState K V :=
  match timeitExec stmt 3 s with
  | (.error e, s) => (.error e, s)
  | (.ok _, s) => (.ok (timeitTotal cost i 3 / 3 * 1000), s)

/-- The list comprehension `[t.timeit(3)/3.0 * 1000 for _ in range(3)]`,
built trial by trial; a failure anywhere aborts the whole comprehension. -/
def trialsExec (stmt : RunState K V → Except (RunError ε) α × RunState K V)
    (cost : Nat → Nat → ℚ) :
    List Nat → RunState K V → Except (RunError ε) (List ℚ) × RunState K V
  | [], s => (.ok [], s)
  | i :: is, s =>
    match trialExec stmt cost i s with
    | (.error e, s) => (.error e, s)
    | (.ok t, s) =>
      match trialsExec stmt cost is s with
      | (.error e, s) => (.error e, s)
      | (.ok ts, s) => (.ok (t :: ts), s)

/-- Python's `min` over a (nonempty) list; the empty case never arises in
`run` since `range(3)` is nonempty. -/
def listMin : List ℚ → ℚ
  | [] => 0
  | t :: ts => ts.foldl min t

/-- `Benchmark.run`, instrumented: returns the harness result together with
the final instrumentation state.  Translated from
`r = min([t.timeit(3)/3.0 * 1000 for _ in range(3)])`. -/
def Benchmark.runExec (funcs : Catalog K V ε α) (b : Benchmark K V)
    (name : String) (cost : Nat → Nat → ℚ) :
    Except (RunError ε) ℚ × RunState K V :=
  match trialsExec (stmtExec funcs name b.rdd) cost (List.range 3) RunState.init with
  | (.error e, s) => (.error e, s)
  | (.ok ts, s) => (.ok (listMin ts), s)

/-- `Benchmark.run`: the value the harness returns to its caller. -/
def Benchmark.run (funcs : Catalog K V ε α) (b : Benchmark K V)
    (name : String) (cost : Nat → Nat → ℚ) : Except (RunError ε) ℚ :=
  (Benchmark.runExec funcs b name cost).1

/-- A batch such as `distributed = [t.run(k) for k in funcs.keys()]`: the
comprehension evaluates `run` name by name and aborts on the first failing
`run`, producing no list at all (the partially built list is discarded). -/
def batchRun (funcs : Catalog K V ε α) (b : Benchmark K V) :
    List String → (Nat → Nat → ℚ) → Except (RunError ε) (List ℚ)
  | [], _ => .ok []
  | k :: ks, cost =>
    match Benchmark.run funcs b k cost with
    | .error e => .error e
    | .ok t =>
      match batchRun funcs b ks cost with
      | .error e => .error e
      | .ok ts => .ok (t :: ts)

/-- The per-invocation mean of trial `i` in milliseconds, as the spec words
the measurement policy (mean of 3 consecutive invocations, seconds × 1000). -/
def trialMeanMs (cost : Nat → Nat → ℚ) (i : Nat) : ℚ :=
  (cost i 0 + cost i 1 + cost i 2) / 3 * 1000

/-- The effect of `n` successful statement executions on the instrumentation
state: `n` more lookups, `n` more operation calls, `n` more observations of
the stored collection. -/
def statStepN (rdd : Collection K V) (n : Nat) (s : RunState K V) : RunState K V :=
  ⟨s.lookups + n, s.opCalls + n, s.args ++ List.replicate n rdd⟩

/-! ## The notebook's operation catalog and concrete test fixtures -/

/-- Elementwise addition of two numeric arrays (`numpy.add` on 1-d arrays). -/
def addArr (x y : List Int) : List Int :=
  List.zipWith (· + ·) x y

/-- Elementwise maximum of two numeric arrays (`numpy.maximum`). -/
def maxArr (x y : List Int) : List Int :=
  List.zipWith max x y

/-- `x.sum()` on a 1-d numeric array. -/
def sumArr (x : List Int) : Int :=
  x.sum

/-- The heterogeneous results the catalog closures can produce. -/
inductive OpResult : Type
  | value (v : List Int)
  | num (n : Nat)
  | collected (vs : List (List Int))
deriving DecidableEq

/-- `funcs['sum'] = lambda rdd: rdd.values().reduce(add)`. -/
def sumOp : Collection Int (List Int) → Except EngineError OpResult :=
  fun rdd => (rdd.reduce addArr).map OpResult.value

/-- `funcs['max'] = lambda rdd: rdd.values().reduce(maximum)`. -/
def maxOp : Collection Int (List Int) → Except EngineError OpResult :=
  fun rdd => (rdd.reduce maxArr).map OpResult.value

/-- `funcs['filter'] = lambda rdd: rdd.filter(lambda (k, v): k > 50).count()`. -/
def filterOp : Collection Int (List Int) → Except EngineError OpResult :=
  fun rdd => .ok (.num ((rdd.filter (fun k _v => decide (50 < k))).count))

/-- `funcs['map'] = lambda rdd: rdd.mapValues(lambda x: x.sum()).count()`. -/
def mapOp : Collection Int (List Int) → Except EngineError OpResult :=
  fun rdd => .ok (.num ((rdd.mapValues sumArr).count))

/-- `funcs['collect'] = lambda rdd: rdd.values().collect()`. -/
def collectOp : Collection Int (List Int) → Except EngineError OpResult :=
  fun rdd => .ok (.collected rdd.collect)

/-- `funcs['reduceByKey'] = lambda rdd: rdd.reduceByKey(add).count()`. -/
def reduceByKeyOp : Collection Int (List Int) → Except EngineError OpResult :=
  fun rdd => .ok (.num ((rdd.reduceByKey addArr).count))

/-- `funcs['groupByKey'] = lambda rdd: rdd.groupByKey().count()`. -/
def groupByKeyOp : Collection Int (List Int) → Except EngineError OpResult :=
  fun rdd => .ok (.num (rdd.groupByKey.length))

/-- The notebook's `funcs` dictionary. -/
def modelFuncs : Catalog Int (List Int) EngineError OpResult :=
  [("sum", sumOp), ("max", maxOp), ("filter", filterOp), ("map", mapOp),
   ("collect", collectOp), ("reduceByKey", reduceByKeyOp), ("groupByKey", groupByKeyOp)]

/-- A small keyed collection of arrays for concrete runs. -/
def benchW : Benchmark Int (List Int) :=
  ⟨⟨[(1, [1, 2]), (2, [3, 4])]⟩⟩

/-- A ghost cost oracle: invocation `j` of trial `i` takes `i + j` seconds. -/
def costW : Nat → Nat → ℚ :=
  fun i j => (i : ℚ) + (j : ℚ)

/-- A ghost cost oracle where every invocation takes zero time. -/
def costZero : Nat → Nat → ℚ :=
  fun _ _ => 0

/-- A ghost cost oracle where every invocation takes one second. -/
def costOne : Nat → Nat → ℚ :=
  fun _ _ => 1

/-- An operation that always fails. -/
def failOp : Collection Int Int → Except String Unit :=
  fun _ => .error "boom"

/-- An operation that always succeeds. -/
def okOp : Collection Int Int → Except String Unit :=
  fun _ => .ok ()

/-- A one-record collection under benchmark. -/
def benchSmall : Benchmark Int Int :=
  ⟨⟨[(1, 1)]⟩⟩

/-- A catalog binding the same failing operation under two distinct names. -/
def catTwoNames : Catalog Int Int String Unit :=
  [("a", failOp), ("b", failOp)]

/-- A catalog with one succeeding and one failing operation, for batch runs. -/
def catBatch : Catalog Int Int String Unit :=
  [("ok", okOp), ("bad", failOp)]

/-- A catalog binding `"op"` to a succeeding closure. -/
def catOpGood : Catalog Int Int String Unit :=
  [("op", okOp)]

/-- A catalog binding `"op"` to a failing closure. -/
def catOpBad : Catalog Int Int String Unit :=
  [("op", failOp)]

/-- The spec's concrete scenario collection:
`Collection::from(values=[10,20,30,40], keys=[1,1,2,2])`. -/
def c8Data : Collection Int Int :=
  ⟨[(1, 10), (1, 20), (2, 30), (2, 40)]⟩

/-! ## Helper lemmas: execution characterizations -/

lemma statStepN_add (rdd : Collection K V) (n m : Nat) (s : RunState K V) :
    statStepN rdd m (statStepN rdd n s) = statStepN rdd (n + m) s := by
  unfold statStepN
  rw [Nat.add_assoc, Nat.add_assoc, List.append_assoc, ← List.replicate_add]

lemma statStepN_zero (rdd : Collection K V) (s : RunState K V) :
    statStepN rdd 0 s = s := by
  simp [statStepN]

lemma stmtExec_not_found (funcs : Catalog K V ε α) (name : String)
    (rdd : Collection K V) (s : RunState K V)
    (h : lookupCatalog name funcs = none) :
    stmtExec funcs name rdd s =
      (.error (.unknownOperation name), ⟨s.lookups + 1, s.opCalls, s.args⟩) := by
  simp only [stmtExec, h]

lemma stmtExec_found_ok (funcs : Catalog K V ε α) (name : String)
    (rdd : Collection K V) (s : RunState K V)
    (f : Collection K V → Except ε α) (a : α)
    (h : lookupCatalog name funcs = some f) (ha : f rdd = .ok a) :
    stmtExec funcs name rdd s = (.ok a, statStepN rdd 1 s) := by
  simp only [stmtExec, h, ha, statStepN, List.replicate_one]

lemma stmtExec_found_error (funcs : Catalog K V ε α) (name : String)
    (rdd : Collection K V) (s : RunState K V)
    (f : Collection K V → Except ε α) (e : ε)
    (h : lookupCatalog name funcs = some f) (he : f rdd = .error e) :
    stmtExec funcs name rdd s = (.error (.opFailure e), statStepN rdd 1 s) := by
  simp only [stmtExec, h, he, statStepN, List.replicate_one]

lemma timeitExec_all_ok (stmt : RunState K V → Except (RunError ε) α × RunState K V)
    (a : α) (rdd : Collection K V)
    (hstmt : ∀ s, stmt s = (.ok a, statStepN rdd 1 s)) :
    ∀ (n : Nat) (s : RunState K V),
      timeitExec stmt n s = (.ok (), statStepN rdd n s) := by
  intro n
  induction n with
  | zero => intro s; simp [timeitExec, statStepN_zero]
  | succ n ih =>
    intro s
    simp only [timeitExec, hstmt s, ih, statStepN_add]
    rw [Nat.add_comm 1 n]

lemma timeitExec_all_error (stmt : RunState K V → Except (RunError ε) α × RunState K V)
    (e : RunError ε) (upd : RunState K V → RunState K V)
    (hstmt : ∀ s, stmt s = (.error e, upd s)) (n : Nat) (s : RunState K V) :
    timeitExec stmt (n + 1) s = (.error e, upd s) := by
  simp only [timeitExec, hstmt s]

lemma trialExec_all_ok (stmt : RunState K V → Except (RunError ε) α × RunState K V)
    (a : α) (rdd : Collection K V)
    (hstmt : ∀ s, stmt s = (.ok a, statStepN rdd 1 s))
    (cost : Nat → Nat → ℚ) (i : Nat) (s : RunState K V) :
    trialExec stmt cost i s =
      (.ok (timeitTotal cost i 3 / 3 * 1000), statStepN rdd 3 s) := by
  simp only [trialExec, timeitExec_all_ok stmt a rdd hstmt 3 s]

lemma trialExec_all_error (stmt : RunState K V → Except (RunError ε) α × RunState K V)
    (e : RunError ε) (upd : RunState K V → RunState K V)
    (hstmt : ∀ s, stmt s = (.error e, upd s))
    (cost : Nat → Nat → ℚ) (i : Nat) (s : RunState K V) :
    trialExec stmt cost i s = (.error e, upd s) := by
  simp only [trialExec, timeitExec_all_error stmt e upd hstmt 2 s]

lemma trialsExec_all_ok (stmt : RunState K V → Except (RunError ε) α × RunState K V)
    (a : α) (rdd : Collection K V)
    (hstmt : ∀ s, stmt s = (.ok a, statStepN rdd 1 s)) (cost : Nat → Nat → ℚ) :
    ∀ (is : List Nat) (s : RunState K V),
      trialsExec stmt cost is s =
        (.ok (is.map (fun i => timeitTotal cost i 3 / 3 * 1000)),
         statStepN rdd (3 * is.length) s) := by
  intro is
  induction is with
  | nil => intro s; simp [trialsExec, statStepN_zero]
  | cons i is ih =>
    intro s
    simp only [trialsExec, trialExec_all_ok stmt a rdd hstmt cost i s, ih,
      statStepN_add, List.map_cons, List.length_cons]
    rw [show 3 + 3 * is.length = 3 * (is.length + 1) by ring]

lemma trialsExec_all_error (stmt : RunState K V → Except (RunError ε) α × RunState K V)
    (e : RunError ε) (upd : RunState K V → RunState K V)
    (hstmt : ∀ s, stmt s = (.error e, upd s))
    (cost : Nat → Nat → ℚ) (i : Nat) (is : List Nat) (s : RunState K V) :
    trialsExec stmt cost (i :: is) s = (.error e, upd s) := by
  simp only [trialsExec, trialExec_all_error stmt e upd hstmt cost i s]

lemma timeitTotal_three (cost : Nat → Nat → ℚ) (i : Nat) :
    timeitTotal cost i 3 = cost i 0 + cost i 1 + cost i 2 := by
  show (([0, 1, 2] : List Nat).map (cost i)).sum = _
  simp [List.sum_cons]
  ring

lemma range_three : List.range 3 = [0, 1, 2] := rfl

/-- Characterization of a successful run: the harness returns the minimum of
the three per-trial means in milliseconds, having performed 9 lookups and 9
operation invocations, each on the stored collection. -/
lemma runExec_found_ok (funcs : Catalog K V ε α) (b : Benchmark K V)
    (name : String) (cost : Nat → Nat → ℚ)
    (f : Collection K V → Except ε α) (a : α)
    (h : lookupCatalog name funcs = some f) (ha : f b.rdd = .ok a) :
    Benchmark.runExec funcs b name cost =
      (.ok (min (min (trialMeanMs cost 0) (trialMeanMs cost 1)) (trialMeanMs cost 2)),
       ⟨9, 9, List.replicate 9 b.rdd⟩) := by
  have hstmt : ∀ s, stmtExec funcs name b.rdd s = (.ok a, statStepN b.rdd 1 s) :=
    fun s => stmtExec_found_ok funcs name b.rdd s f a h ha
  rw [Benchmark.runExec, trialsExec_all_ok (stmtExec funcs name b.rdd) a b.rdd hstmt
    cost (List.range 3) RunState.init]
  simp only [range_three, List.map_cons, List.map_nil, List.length_cons,
    List.length_nil, listMin, List.foldl, timeitTotal_three, trialMeanMs]
  norm_num [statStepN, RunState.init]

lemma runExec_not_found (funcs : Catalog K V ε α) (b : Benchmark K V)
    (name : String) (cost : Nat → Nat → ℚ)
    (h : lookupCatalog name funcs = none) :
    Benchmark.runExec funcs b name cost =
      (.error (.unknownOperation name), ⟨1, 0, []⟩) := by
  have hstmt : ∀ s, stmtExec funcs name b.rdd s =
      (.error (.unknownOperation name), ⟨s.lookups + 1, s.opCalls, s.args⟩) :=
    fun s => stmtExec_not_found funcs name b.rdd s h
  rw [Benchmark.runExec, range_three,
    trialsExec_all_error (stmtExec funcs name b.rdd) (.unknownOperation name)
      (fun s => ⟨s.lookups + 1, s.opCalls, s.args⟩) hstmt cost 0 [1, 2] RunState.init]
  rfl

lemma runExec_found_error (funcs : Catalog K V ε α) (b : Benchmark K V)
    (name : String) (cost : Nat → Nat → ℚ)
    (f : Collection K V → Except ε α) (e : ε)
    (h : lookupCatalog name funcs = some f) (he : f b.rdd = .error e) :
    Benchmark.runExec funcs b name cost =
      (.error (.opFailure e), ⟨1, 1, [b.rdd]⟩) := by
  have hstmt : ∀ s, stmtExec funcs name b.rdd s =
      (.error (.opFailure e), statStepN b.rdd 1 s) :=
    fun s => stmtExec_found_error funcs name b.rdd s f e h he
  rw [Benchmark.runExec, range_three,
    trialsExec_all_error (stmtExec funcs name b.rdd) (.opFailure e)
      (statStepN b.rdd 1) hstmt cost 0 [1, 2] RunState.init]
  simp [statStepN, RunState.init]

lemma run_found_ok (funcs : Catalog K V ε α) (b : Benchmark K V)
    (name : String) (cost : Nat → Nat → ℚ)
    (f : Collection K V → Except ε α) (a : α)
    (h : lookupCatalog name funcs = some f) (ha : f b.rdd = .ok a) :
    Benchmark.run funcs b name cost =
      .ok (min (min (trialMeanMs cost 0) (trialMeanMs cost 1)) (trialMeanMs cost 2)) := by
  rw [Benchmark.run, runExec_found_ok funcs b name cost f a h ha]

/-! ## Helper lemmas: instrumentation invariants -/

lemma stmtExec_lookups (funcs : Catalog K V ε α) (name : String)
    (rdd : Collection K V) (s : RunState K V) :
    (stmtExec funcs name rdd s).2.lookups = s.lookups + 1 := by
  cases h : lookupCatalog name funcs with
  | none => rw [stmtExec_not_found funcs name rdd s h]
  | some f =>
    cases hf : f rdd with
    | error e => rw [stmtExec_found_error funcs name rdd s f e h hf]; rfl
    | ok a => rw [stmtExec_found_ok funcs name rdd s f a h hf]; rfl

lemma stmtExec_fst_const (funcs : Catalog K V ε α) (name : String)
    (rdd : Collection K V) (s t : RunState K V) :
    (stmtExec funcs name rdd s).1 = (stmtExec funcs name rdd t).1 := by
  cases h : lookupCatalog name funcs with
  | none =>
    rw [stmtExec_not_found funcs name rdd s h, stmtExec_not_found funcs name rdd t h]
  | some f =>
    cases hf : f rdd with
    | error e =>
      rw [stmtExec_found_error funcs name rdd s f e h hf,
        stmtExec_found_error funcs name rdd t f e h hf]
    | ok a =>
      rw [stmtExec_found_ok funcs name rdd s f a h hf,
        stmtExec_found_ok funcs name rdd t f a h hf]

lemma stmtExec_args_cases (funcs : Catalog K V ε α) (name : String)
    (rdd : Collection K V) (s : RunState K V) (c : Collection K V)
    (hc : c ∈ (stmtExec funcs name rdd s).2.args) : c = rdd ∨ c ∈ s.args := by
  cases h : lookupCatalog name funcs with
  | none =>
    rw [stmtExec_not_found funcs name rdd s h] at hc
    exact Or.inr hc
  | some f =>
    cases hf : f rdd with
    | error e =>
      rw [stmtExec_found_error funcs name rdd s f e h hf] at hc
      simp only [statStepN, List.replicate_one, List.mem_append,
        List.mem_singleton] at hc
      tauto
    | ok a =>
      rw [stmtExec_found_ok funcs name rdd s f a h hf] at hc
      simp only [statStepN, List.replicate_one, List.mem_append,
        List.mem_singleton] at hc
      tauto

lemma timeitExec_inv (stmt : RunState K V → Except (RunError ε) α × RunState K V)
    (P : RunState K V → Prop) (hstmt : ∀ s, P s → P (stmt s).2) :
    ∀ (n : Nat) (s : RunState K V), P s → P (timeitExec stmt n s).2 := by
  intro n
  induction n with
  | zero => intro s hs; simpa [timeitExec] using hs
  | succ n ih =>
    intro s hs
    have h2 := hstmt s hs
    rcases h : stmt s with ⟨r, s2⟩
    rw [h] at h2
    cases r with
    | error e => simp only [timeitExec, h]; exact h2
    | ok a => simp only [timeitExec, h]; exact ih s2 h2

lemma trialExec_inv (stmt : RunState K V → Except (RunError ε) α × RunState K V)
    (P : RunState K V → Prop) (hstmt : ∀ s, P s → P (stmt s).2)
    (cost : Nat → Nat → ℚ) (i : Nat) (s : RunState K V) (hs : P s) :
    P (trialExec stmt cost i s).2 := by
  have h2 := timeitExec_inv stmt P hstmt 3 s hs
  rcases h : timeitExec stmt 3 s with ⟨r, s2⟩
  rw [h] at h2
  cases r with
  | error e => simp only [trialExec, h]; exact h2
  | ok a => simp only [trialExec, h]; exact h2

lemma trialsExec_inv (stmt : RunState K V → Except (RunError ε) α × RunState K V)
    (P : RunState K V → Prop) (hstmt : ∀ s, P s → P (stmt s).2)
    (cost : Nat → Nat → ℚ) :
    ∀ (is : List Nat) (s : RunState K V), P s → P (trialsExec stmt cost is s).2 := by
  intro is
  induction is with
  | nil => intro s hs; simpa [trialsExec] using hs
  | cons i is ih =>
    intro s hs
    have h2 := trialExec_inv stmt P hstmt cost i s hs
    rcases h : trialExec stmt cost i s with ⟨r, s2⟩
    rw [h] at h2
    cases r with
    | error e => simp only [trialsExec, h]; exact h2
    | ok t =>
      have h3 := ih s2 h2
      rcases h4 : trialsExec stmt cost is s2 with ⟨r2, s3⟩
      rw [h4] at h3
      cases r2 with
      | error e => simp only [trialsExec, h, h4]; exact h3
      | ok ts => simp only [trialsExec, h, h4]; exact h3

lemma runExec_args (funcs : Catalog K V ε α) (b : Benchmark K V) (name : String)
    (cost : Nat → Nat → ℚ) :
    ∀ c ∈ (Benchmark.runExec funcs b name cost).2.args, c = b.rdd := by
  have hP : ∀ s : RunState K V, (∀ c ∈ s.args, c = b.rdd) →
      ∀ c ∈ (stmtExec funcs name b.rdd s).2.args, c = b.rdd := by
    intro s hs c hc
    rcases stmtExec_args_cases funcs name b.rdd s c hc with h | h
    · exact h
    · exact hs c h
  have h0 : ∀ c ∈ (RunState.init : RunState K V).args, c = b.rdd := by
    intro c hc
    simp [RunState.init] at hc
  have h := trialsExec_inv (stmtExec funcs name b.rdd)
    (fun s => ∀ c ∈ s.args, c = b.rdd) hP cost (List.range 3) RunState.init h0
  rcases hres : trialsExec (stmtExec funcs name b.rdd) cost (List.range 3)
      RunState.init with ⟨r, s⟩
  rw [hres] at h
  cases r with
  | error e => simp only [Benchmark.runExec, hres]; exact h
  | ok ts => simp only [Benchmark.runExec, hres]; exact h

/-! ## The claims -/

/-- C1: for every operation name present in the catalog (whose operation
completes on the stored collection), `run(name)` performs 3 independent
trials, each taking the mean of 3 consecutive timed invocations, and returns
the minimum of the 3 trial means in milliseconds (per-invocation seconds
multiplied by 1000). -/
theorem c1_run_returns_min_of_trial_means (funcs : Catalog K V ε α)
    (b : Benchmark K V) (name : String) (cost : Nat → Nat → ℚ)
    (f : Collection K V → Except ε α) (a : α)
    (h : lookupCatalog name funcs = some f) (ha : f b.rdd = .ok a) :
    Benchmark.run funcs b name cost =
      .ok (min (min (trialMeanMs cost 0) (trialMeanMs cost 1)) (trialMeanMs cost 2)) :=
  run_found_ok funcs b name cost f a h ha

/-- Witness for C1 at the notebook's catalog, the `"sum"` operation and a
concrete cost oracle. -/
theorem c1_witness :
    lookupCatalog "sum" modelFuncs = some sumOp ∧
    sumOp benchW.rdd = .ok (.value [4, 6]) ∧
    Benchmark.run modelFuncs benchW "sum" costW =
      .ok (min (min (trialMeanMs costW 0) (trialMeanMs costW 1)) (trialMeanMs costW 2)) :=
  ⟨rfl, rfl, c1_run_returns_min_of_trial_means modelFuncs benchW "sum" costW
    sumOp (.value [4, 6]) rfl rfl⟩

/-- C2: for every collection and every name absent from the caller-supplied
catalog, `run` fails with `UnknownOperationError` (the `KeyError` of the
dictionary lookup) and with no other outcome. -/
theorem c2_unknown_operation (funcs : Catalog K V ε α) (b : Benchmark K V)
    (name : String) (cost : Nat → Nat → ℚ)
    (h : lookupCatalog name funcs = none) :
    Benchmark.run funcs b name cost = .error (.unknownOperation name) := by
  rw [Benchmark.run, runExec_not_found funcs b name cost h]

/-- Witness for C2 at the notebook's catalog and the name `"nonexistent"`. -/
theorem c2_witness :
    lookupCatalog "nonexistent" modelFuncs = none ∧
    Benchmark.run modelFuncs benchW "nonexistent" costW =
      .error (.unknownOperation "nonexistent") :=
  ⟨rfl, c2_unknown_operation modelFuncs benchW "nonexistent" costW rfl⟩

/-- C3 counterexample: the harness attaches no context when a timed operation
fails.  The same failing operation registered under the two distinct names
`"a"` and `"b"` produces bit-for-bit identical errors, so the caller cannot
tell which named operation failed, and no trial index is attached either:
the error is exactly the operation's own failure. -/
theorem c3_counterexample :
    Benchmark.run catTwoNames benchSmall "a" costZero =
      Benchmark.run catTwoNames benchSmall "b" costZero ∧
    Benchmark.run catTwoNames benchSmall "a" costZero =
      .error (.opFailure "boom") :=
  ⟨rfl, rfl⟩

/-- C3 (amended): whenever the operation being timed raises a failure, the
harness re-raises that failure to its caller unchanged — it neither swallows
the failure nor returns a partial timing — but attaches no context (no
operation name, no trial index). -/
theorem c3_failure_propagated_unchanged (funcs : Catalog K V ε α)
    (b : Benchmark K V) (name : String) (cost : Nat → Nat → ℚ)
    (f : Collection K V → Except ε α) (e : ε)
    (h : lookupCatalog name funcs = some f) (he : f b.rdd = .error e) :
    Benchmark.run funcs b name cost = .error (.opFailure e) := by
  rw [Benchmark.run, runExec_found_error funcs b name cost f e h he]

/-- Witness for the amended C3 at a concrete failing operation. -/
theorem c3_witness :
    lookupCatalog "a" catTwoNames = some failOp ∧
    failOp benchSmall.rdd = .error "boom" ∧
    Benchmark.run catTwoNames benchSmall "a" costZero =
      .error (.opFailure "boom") :=
  ⟨rfl, rfl, c3_failure_propagated_unchanged catTwoNames benchSmall "a" costZero
    failOp "boom" rfl rfl⟩

/-- C4 counterexample: running the batch `["ok", "bad"]` where `"ok"` would
time successfully (at 1000 ms under the unit cost oracle) and `"bad"` fails:
the batch evaluates to the bare failure, carrying no list at all, so the
timing already obtained for `"ok"` is discarded rather than remaining
available to the caller. -/
theorem c4_counterexample :
    Benchmark.run catBatch benchSmall "ok" costOne = .ok 1000 ∧
    batchRun catBatch benchSmall ["ok", "bad"] costOne =
      .error (.opFailure "boom") := by
  refine ⟨?_, rfl⟩
  rw [run_found_ok catBatch benchSmall "ok" costOne okOp () rfl rfl]
  norm_num [trialMeanMs, costOne]

/-- C4 (amended): if any operation of a batch fails, the whole batch
comprehension evaluates to a failure: no list of timings is produced, so the
timings of operations that ran earlier in the same batch are discarded (only
results of previously completed, separately bound batches survive). -/
theorem c4_failing_batch_yields_no_list (funcs : Catalog K V ε α)
    (b : Benchmark K V) (cost : Nat → Nat → ℚ) :
    ∀ (names : List String) (name : String) (e0 : RunError ε),
      name ∈ names → Benchmark.run funcs b name cost = .error e0 →
      ∃ e, batchRun funcs b names cost = .error e := by
  intro names
  induction names with
  | nil => intro name e0 h; cases h
  | cons x xs ih =>
    intro name e0 hmem hrun
    rcases hx : Benchmark.run funcs b x cost with e | t
    · exact ⟨e, by simp only [batchRun, hx]⟩
    · rcases List.mem_cons.mp hmem with rfl | hmem2
      · rw [hrun] at hx; cases hx
      · obtain ⟨e, he⟩ := ih name e0 hmem2 hrun
        exact ⟨e, by simp only [batchRun, hx, he]⟩

/-- Witness for the amended C4 at the concrete two-element batch. -/
theorem c4_witness :
    ("bad" : String) ∈ ["ok", "bad"] ∧
    Benchmark.run catBatch benchSmall "bad" costOne = .error (.opFailure "boom") ∧
    ∃ e, batchRun catBatch benchSmall ["ok", "bad"] costOne = .error e :=
  ⟨by decide, rfl,
    c4_failing_batch_yields_no_list catBatch benchSmall costOne
      ["ok", "bad"] "bad" (.opFailure "boom") (by decide) rfl⟩

/-- C5: the harness never mutates the collection between trials: every one of
the timed invocations of a run observes exactly the stored collection, with
its value sequence (`collect()`) unchanged, and executing the timed operation
a second time (in the state left by the first execution) yields the same
result as the first execution. -/
theorem c5_no_mutation_between_trials (funcs : Catalog K V ε α)
    (b : Benchmark K V) (name : String) (cost : Nat → Nat → ℚ) :
    (∀ c ∈ (Benchmark.runExec funcs b name cost).2.args,
        c = b.rdd ∧ c.collect = b.rdd.collect) ∧
    (∀ s : RunState K V,
        (stmtExec funcs name b.rdd s).1 =
          (stmtExec funcs name b.rdd ((stmtExec funcs name b.rdd s).2)).1) := by
  constructor
  · intro c hc
    have h := runExec_args funcs b name cost c hc
    exact ⟨h, by rw [h]⟩
  · intro s
    exact stmtExec_fst_const funcs name b.rdd s _

/-- Witness for C5: under the notebook catalog, a concrete run whose
invocation argument list indeed contains (only) the stored collection. -/
theorem c5_witness :
    benchW.rdd ∈ (Benchmark.runExec modelFuncs benchW "sum" costW).2.args ∧
    (benchW.rdd = benchW.rdd ∧ benchW.rdd.collect = benchW.rdd.collect) :=
  ⟨by decide,
    (c5_no_mutation_between_trials modelFuncs benchW "sum" costW).1
      benchW.rdd (by decide)⟩

/-- C6: for a deterministic operation whose per-invocation cost is a fixed
nonnegative delay `d` plus nonnegative noise, `run()` over 3 trials of 3
inner loops returns a value at least `d` and at most the maximum of the three
observed trial means. -/
theorem c6_min_bounds (funcs : Catalog K V ε α) (b : Benchmark K V)
    (name : String) (f : Collection K V → Except ε α) (a : α)
    (d : ℚ) (ν : Nat → Nat → ℚ)
    (h : lookupCatalog name funcs = some f) (ha : f b.rdd = .ok a)
    (hd : 0 ≤ d) (hν : ∀ i j, 0 ≤ ν i j) :
    ∃ r, Benchmark.run funcs b name (fun i j => d + ν i j) = .ok r ∧
      d ≤ r ∧
      r ≤ max (max (trialMeanMs (fun i j => d + ν i j) 0)
                   (trialMeanMs (fun i j => d + ν i j) 1))
              (trialMeanMs (fun i j => d + ν i j) 2) := by
  have hmean : ∀ i : Nat, d ≤ trialMeanMs (fun i j => d + ν i j) i := by
    intro i
    have h0 := hν i 0
    have h1 := hν i 1
    have h2 := hν i 2
    show d ≤ ((d + ν i 0) + (d + ν i 1) + (d + ν i 2)) / 3 * 1000
    linarith
  refine ⟨_, run_found_ok funcs b name (fun i j => d + ν i j) f a h ha, ?_, ?_⟩
  · exact le_min (le_min (hmean 0) (hmean 1)) (hmean 2)
  · calc min (min (trialMeanMs (fun i j => d + ν i j) 0)
              (trialMeanMs (fun i j => d + ν i j) 1))
          (trialMeanMs (fun i j => d + ν i j) 2)
        ≤ min (trialMeanMs (fun i j => d + ν i j) 0)
            (trialMeanMs (fun i j => d + ν i j) 1) := min_le_left _ _
      _ ≤ trialMeanMs (fun i j => d + ν i j) 0 := min_le_left _ _
      _ ≤ max (trialMeanMs (fun i j => d + ν i j) 0)
            (trialMeanMs (fun i j => d + ν i j) 1) := le_max_left _ _
      _ ≤ max (max (trialMeanMs (fun i j => d + ν i j) 0)
              (trialMeanMs (fun i j => d + ν i j) 1))
            (trialMeanMs (fun i j => d + ν i j) 2) := le_max_left _ _

/-- Witness for C6 at delay 1 with zero noise, on the notebook catalog. -/
theorem c6_witness :
    ∃ r, Benchmark.run modelFuncs benchW "sum"
        (fun i j => 1 + (fun _ _ => (0 : ℚ)) i j) = .ok r ∧
      (1 : ℚ) ≤ r ∧
      r ≤ max (max (trialMeanMs (fun i j => 1 + (fun _ _ => (0 : ℚ)) i j) 0)
                   (trialMeanMs (fun i j => 1 + (fun _ _ => (0 : ℚ)) i j) 1))
              (trialMeanMs (fun i j => 1 + (fun _ _ => (0 : ℚ)) i j) 2) :=
  c6_min_bounds modelFuncs benchW "sum" sumOp (.value [4, 6]) 1
    (fun _ _ => 0) rfl rfl (by norm_num) (fun _ _ => le_refl 0)

/-- C7: `reduce` fails with `EmptyCollectionError` exactly on a collection of
zero records — and that is the only error `reduce` can report — while on
every non-empty collection it returns a single combined value. -/
theorem c7_reduce_empty_error (f : V → V → V) (C : Collection K V) :
    (C.reduce f = .error .emptyCollection ↔ C.count = 0) ∧
    (∀ e, C.reduce f = .error e → e = .emptyCollection) ∧
    (C.count ≠ 0 → ∃ v, C.reduce f = .ok v) := by
  rcases C with ⟨records⟩
  cases records with
  | nil =>
    refine ⟨?_, ?_, ?_⟩
    · simp [Collection.reduce, Collection.values, Collection.count]
    · intro e he
      simp only [Collection.reduce, Collection.values, List.map_nil] at he
      exact (Except.error.inj he).symm
    · intro hcount
      simp [Collection.count] at hcount
  | cons r rs =>
    refine ⟨?_, ?_, ?_⟩
    · simp [Collection.reduce, Collection.values, Collection.count]
    · intro e he
      simp [Collection.reduce, Collection.values] at he
    · intro hcount
      refine ⟨(rs.map Prod.snd).foldl f r.2, ?_⟩
      simp [Collection.reduce, Collection.values]

/-- Witness for C7 on a one-record collection. -/
theorem c7_witness :
    ((⟨[((1 : Int), (5 : Int))]⟩ : Collection Int Int).count ≠ 0) ∧
    ∃ v, (⟨[((1 : Int), (5 : Int))]⟩ : Collection Int Int).reduce (· + ·) = .ok v :=
  ⟨by decide, (c7_reduce_empty_error (· + ·) ⟨[(1, 5)]⟩).2.2 (by decide)⟩

/-- C8: the spec's concrete scenario on `values=[10,20,30,40]`,
`keys=[1,1,2,2]`: the grouping, keyed reduction, filter and global reduce
all produce exactly the listed results. -/
theorem c8_concrete_scenario :
    Collection.fromSeqs ([10, 20, 30, 40] : List Int) ([1, 1, 2, 2] : List Int) =
      .ok c8Data ∧
    c8Data.groupByKey = [(1, [10, 20]), (2, [30, 40])] ∧
    (c8Data.reduceByKey (· + ·)).records = [(1, 30), (2, 70)] ∧
    (c8Data.filter (fun k _v => decide (1 < k))).records = [(2, 30), (2, 40)] ∧
    c8Data.reduce (· + ·) = .ok 100 :=
  ⟨rfl, rfl, rfl, rfl, rfl⟩

/-- C9: when the name is present (and the operation completes), one call to
`run` invokes the catalog closure on the stored collection exactly 9 times
(3 trials × 3 invocations); the catalog lookup happens inside every timed
invocation (each statement execution performs exactly one more lookup), so
a per-invocation lookup overhead of `ℓ` seconds shifts the reported result
by exactly `1000·ℓ` milliseconds. -/
theorem c9_nine_invocations_lookup_inside (funcs : Catalog K V ε α)
    (b : Benchmark K V) (name : String) (cost : Nat → Nat → ℚ)
    (f : Collection K V → Except ε α) (a : α)
    (h : lookupCatalog name funcs = some f) (ha : f b.rdd = .ok a) :
    (Benchmark.runExec funcs b name cost).2.lookups = 9 ∧
    (Benchmark.runExec funcs b name cost).2.opCalls = 9 ∧
    (∀ s : RunState K V, (stmtExec funcs name b.rdd s).2.lookups = s.lookups + 1) ∧
    (∀ L : ℚ, Benchmark.run funcs b name (fun i j => L + cost i j) =
        .ok (1000 * L + min (min (trialMeanMs cost 0) (trialMeanMs cost 1))
          (trialMeanMs cost 2))) := by
  refine ⟨?_, ?_, ?_, ?_⟩
  · rw [runExec_found_ok funcs b name cost f a h ha]
  · rw [runExec_found_ok funcs b name cost f a h ha]
  · intro s
    exact stmtExec_lookups funcs name b.rdd s
  · intro L
    rw [run_found_ok funcs b name (fun i j => L + cost i j) f a h ha]
    have hshift : ∀ i : Nat,
        trialMeanMs (fun i j => L + cost i j) i = 1000 * L + trialMeanMs cost i := by
      intro i
      unfold trialMeanMs
      ring
    rw [hshift 0, hshift 1, hshift 2, min_add_add_left, min_add_add_left]

/-- Witness for C9 on the notebook catalog and the `"sum"` operation. -/
theorem c9_witness :
    (Benchmark.runExec modelFuncs benchW "sum" costW).2.lookups = 9 ∧
    (Benchmark.runExec modelFuncs benchW "sum" costW).2.opCalls = 9 :=
  ⟨(c9_nine_invocations_lookup_inside modelFuncs benchW "sum" costW
      sumOp (.value [4, 6]) rfl rfl).1,
   (c9_nine_invocations_lookup_inside modelFuncs benchW "sum" costW
      sumOp (.value [4, 6]) rfl rfl).2.1⟩

/-- C10: the catalog is resolved at invocation time, not captured at
`Benchmark` construction: a `Benchmark` consists of nothing but its stored
collection, and for a fixed benchmark and name, runs against two catalogs
that bind different closures to that name produce different outcomes. -/
theorem c10_catalog_resolved_at_invocation :
    (∀ (K V : Type) (b1 b2 : Benchmark K V), b1.rdd = b2.rdd → b1 = b2) ∧
    Benchmark.run catOpGood benchSmall "op" costZero ≠
      Benchmark.run catOpBad benchSmall "op" costZero := by
  constructor
  · intro K V b1 b2 hr
    cases b1
    cases b2
    cases hr
    rfl
  · have h1 : Benchmark.run catOpGood benchSmall "op" costZero = .ok 0 := by
      rw [run_found_ok catOpGood benchSmall "op" costZero okOp () rfl rfl]
      norm_num [trialMeanMs, costZero]
    have h2 : Benchmark.run catOpBad benchSmall "op" costZero =
        .error (.opFailure "boom") := rfl
    rw [h1, h2]
    intro hcontra
    cases hcontra

/-- Witness for C10's structural part at a concrete benchmark. -/
theorem c10_witness :
    benchSmall = benchSmall ∧
    Benchmark.run catOpGood benchSmall "op" costZero ≠
      Benchmark.run catOpBad benchSmall "op" costZero :=
  ⟨c10_catalog_resolved_at_invocation.1 Int Int benchSmall benchSmall rfl,
   c10_catalog_resolved_at_invocation.2⟩

end LocalRDD
